import Mathlib

/-!
Verification of the `JointController` system
(`src/systems/joint_controller/JointController.cc`).

Scalars (C++ `double`) are modelled as rationals.  The entity-component
store (`EntityComponentManager`) is an external collaborator: we model the
slice of it the controller touches — the set of valid model entities, the
joint table queried by `Model::JointByName`, and the three per-entity
scalar-vector component stores (`JointVelocity`, `JointForceCmd`,
`JointVelocityCmd`) as association lists.  A `CreateComponent` call may be
rejected by the store; each step therefore takes a `createOk` oracle
deciding whether a creation performed during that step takes effect.
-/

namespace JointControllerSpec

/-- `using Entity = uint64_t` (gz-sim `Entity.hh`). -/
abbrev Entity := Nat

/-- `const Entity kNullEntity` — the null entity is zero. -/
def kNullEntity : Entity := 0

/-- One row of the joint table used by `Model::JointByName`:
a joint entity `joint` whose `ParentEntity` component is `parent` and whose
`Name` component is `name`. -/
structure Joint where
  parent : Entity
  name : String
  joint : Entity
deriving DecidableEq, Repr

/-- A per-entity component store holding a vector of scalars
(`std::vector<double>` component data), as an association list. -/
abbrev CompStore := List (Entity × List ℚ)

/-- `_ecm.Component<C>(entity)`: `none` models a null component pointer. -/
def getComp (store : CompStore) (e : Entity) : Option (List ℚ) :=
  (store.find? (fun p => p.1 == e)).map (fun p => p.2)

/-- In-place mutation through a non-null component pointer
(`comp->Data() = d`): replaces the data attached to `e`. -/
def setComp (store : CompStore) (e : Entity) (d : List ℚ) : CompStore :=
  store.map (fun p => if p.1 == e then (e, d) else p)

/-- `_ecm.CreateComponent(entity, C(d))`: the external store may reject the
creation (`ok = false`), in which case nothing is added.  The controller
code never inspects the creation result. -/
def createComp (store : CompStore) (e : Entity) (d : List ℚ) (ok : Bool) :
    CompStore :=
  if ok then (e, d) :: store else store

/-- The slice of the `EntityComponentManager` the controller reads/writes. -/
structure Ecm where
  validModels : List Entity
  joints : List Joint
  jointVelocity : CompStore
  jointForceCmd : CompStore
  jointVelocityCmd : CompStore
deriving DecidableEq, Repr

/-- `Model::Valid(ecm)`: the wrapped entity carries a model component. -/
def Ecm.modelValid (ecm : Ecm) (e : Entity) : Bool :=
  ecm.validModels.contains e

/-- `Model::JointByName(ecm, name)`: the entity of a joint child of `m`
with the given name, or `kNullEntity` when there is none. -/
def Ecm.jointByName (ecm : Ecm) (m : Entity) (name : String) : Entity :=
  match ecm.joints.find? (fun j => j.parent == m && j.name == name) with
  | some j => j.joint
  | none => kNullEntity

/-- Joint tables produced by SDF loading never contain a joint with an
empty name (SDF requires nonempty element names). -/
abbrev Ecm.wfNames (ecm : Ecm) : Prop :=
  ∀ j ∈ ecm.joints, j.name ≠ ""

/-- Modelled from the spec (§4.4): the state of `gz::math::PID`, whose
source (gz-math) is not part of this repository fragment.  Gains and
clamps are immutable after `Init`; `iErr` is the integral accumulator,
`pErrLast` the previous error, `firstUpdate` the first-call flag that
suppresses the spurious derivative spike on the very first call. -/
structure PID where
  pGain : ℚ
  iGain : ℚ
  dGain : ℚ
  iMax : ℚ
  iMin : ℚ
  cmdMax : ℚ
  cmdMin : ℚ
  cmdOffset : ℚ
  iErr : ℚ
  pErrLast : ℚ
  firstUpdate : Bool
deriving DecidableEq, Repr

/-- Clamp `x` into `[lo, hi]`. -/
def clampQ (x lo hi : ℚ) : ℚ :=
  if x < lo then lo else if hi < x then hi else x

/-- Modelled from the spec (§4.4): `gz::math::PID::Init` — set the gains,
clamps and offset, with accumulator and previous error reset to zero and
the first-update flag set. -/
def PID.Init (p i d iMax iMin cmdMax cmdMin cmdOffset : ℚ) : PID :=
  { pGain := p, iGain := i, dGain := d, iMax := iMax, iMin := iMin,
    cmdMax := cmdMax, cmdMin := cmdMin, cmdOffset := cmdOffset,
    iErr := 0, pErrLast := 0, firstUpdate := true }

/-- Modelled from the spec (§4.4): `gz::math::PID::Update(error, dt)`.
Proportional term `p*error`; when `dt > 0` the accumulator adds
`error*dt` and is immediately clamped into `[iMin, iMax]`; the derivative
term is zero on the first update or when `dt ≤ 0`, else
`d*(error - previousError)/dt`; the previous error is updated on every
call; the raw output `p-term + i*accumulator + d-term + offset` is clamped
into `[cmdMin, cmdMax]`.  Returns the output and the updated state. -/
def PID.Update (s : PID) (error dt : ℚ) : ℚ × PID :=
  let pTerm := s.pGain * error
  let iErr := if 0 < dt then clampQ (s.iErr + error * dt) s.iMin s.iMax
              else s.iErr
  let dTerm := if s.firstUpdate ∨ dt ≤ 0 then 0
               else s.dGain * (error - s.pErrLast) / dt
  let raw := pTerm + s.iGain * iErr + dTerm + s.cmdOffset
  (clampQ raw s.cmdMin s.cmdMax,
   { s with iErr := iErr, pErrLast := error, firstUpdate := false })

/-- Modelled from the spec: a default-constructed, never-`Init`ed
`gz::math::PID` (only held by velocity-mode instances, which never call
`Update` on it): zero gains, accumulator and previous error zero, first
update pending. -/
def pidDefault : PID :=
  { pGain := 0, iGain := 0, dGain := 0, iMax := 0, iMin := 0,
    cmdMax := 0, cmdMin := 0, cmdOffset := 0,
    iErr := 0, pErrLast := 0, firstUpdate := true }

/-- The members of `JointControllerPrivate` relevant to stepping (the
transport node, mutex and subscription are external collaborators). -/
structure JointControllerPrivate where
  jointEntity : Entity
  jointName : String
  jointVelCmd : ℚ
  model : Entity
  useForceCommands : Bool
  velPid : PID
deriving DecidableEq, Repr

/-- The state produced by `std::make_unique<JointControllerPrivate>()` in
the `JointController` constructor: value-initialization of a class whose
default constructor is not user-provided zero-initializes the object
first, so `jointEntity` is `kNullEntity` (zero) and `jointVelCmd` is `0`;
the default member initializers then set `model` to `kNullEntity` and
`useForceCommands` to `false`. -/
def initState : JointControllerPrivate :=
  { jointEntity := kNullEntity, jointName := "", jointVelCmd := 0,
    model := kNullEntity, useForceCommands := false, velPid := pidDefault }

/-- The already-parsed SDF values the controller consumes.  A missing
`joint_name` reads as the empty string; `initialVelocity` is `none` when
the element is absent; `useForceCommands` is `HasElement && Get<bool>`;
the PID keys are `none` when absent (`Get` then yields its default). -/
structure Sdf where
  jointName : String
  initialVelocity : Option ℚ
  useForceCommands : Bool
  pGain : Option ℚ
  iGain : Option ℚ
  dGain : Option ℚ
  iMax : Option ℚ
  iMin : Option ℚ
  cmdMax : Option ℚ
  cmdMin : Option ℚ
  cmdOffset : Option ℚ
deriving DecidableEq, Repr

/-- `JointController::Configure`.  Topic construction and the transport
subscription are external side effects with no bearing on the stepping
state and are not modelled. -/
def Configure (st0 : JointControllerPrivate) (entity : Entity) (sdf : Sdf)
    (ecm : Ecm) : JointControllerPrivate :=
  let st := { st0 with model := entity }
  if ¬ ecm.modelValid entity then st
  else
    let st := { st with jointName := sdf.jointName }
    if sdf.jointName = "" then st
    else
      let st := match sdf.initialVelocity with
        | some v => { st with jointVelCmd := v }
        | none => st
      if sdf.useForceCommands then
        { st with useForceCommands := true,
                  velPid := PID.Init (sdf.pGain.getD 1) (sdf.iGain.getD 0)
                    (sdf.dGain.getD 0) (sdf.iMax.getD 1) (sdf.iMin.getD (-1))
                    (sdf.cmdMax.getD 1000) (sdf.cmdMin.getD (-1000))
                    (sdf.cmdOffset.getD 0) }
      else st

/-- `JointControllerPrivate::OnCmdVel`: the command-delivery context
overwrites the latest command. -/
def OnCmdVel (st : JointControllerPrivate) (msg : ℚ) :
    JointControllerPrivate :=
  { st with jointVelCmd := msg }

/-- The per-step timing/pause information (`gz::sim::UpdateInfo`). -/
structure UpdateInfo where
  dt : ℚ
  paused : Bool
deriving DecidableEq, Repr

/-- Result of the body of `PreUpdate` after the negative-`dt` warning
check: the new private state, the new store slice, whether a
`JointByName` lookup was performed this step, and whether the
bounds-checked `Data().at(0)` read threw `std::out_of_range`. -/
structure CoreResult where
  st : JointControllerPrivate
  ecm : Ecm
  didLookup : Bool
  atError : Bool
deriving DecidableEq, Repr

/-- Result of a full `PreUpdate` step: the core result plus whether the
jump-back-in-time warning was logged. -/
structure StepResult where
  core : CoreResult
  warned : Bool
deriving DecidableEq, Repr

/-- `JointController::PreUpdate` from the joint-identification block
onward (everything after the negative-`dt` warning). -/
def PreUpdateCore (st0 : JointControllerPrivate) (ecm : Ecm)
    (info : UpdateInfo) (createOk : Bool) : CoreResult :=
  -- If the joint hasn't been identified yet, look for it.
  let didLookup := st0.jointEntity = kNullEntity
  let st := if st0.jointEntity = kNullEntity then
      { st0 with jointEntity := ecm.jointByName st0.model st0.jointName }
    else st0
  if st.jointEntity = kNullEntity then ⟨st, ecm, didLookup, false⟩
  -- Nothing left to do if paused.
  else if info.paused then ⟨st, ecm, didLookup, false⟩
  else
    -- Create joint velocity component if one doesn't exist.
    match getComp ecm.jointVelocity st.jointEntity with
    | none =>
        -- `jointVelComp` is not re-fetched after `CreateComponent`, so the
        -- second `if (jointVelComp == nullptr) return;` always fires here.
        ⟨st,
         { ecm with jointVelocity :=
             (createComp ecm.jointVelocity st.jointEntity [] createOk) },
         didLookup, false⟩
    | some velData =>
        let targetVel := st.jointVelCmd
        if st.useForceCommands then
          -- Force mode.
          match velData.get? 0 with
          | none => ⟨st, ecm, didLookup, true⟩  -- `.at(0)` throws
          | some v0 =>
              let error := v0 - targetVel
              let upd := st.velPid.Update error info.dt
              let force := upd.1
              let st := { st with velPid := upd.2 }
              let ecm :=
                match getComp ecm.jointForceCmd st.jointEntity with
                | none =>
                    { ecm with jointForceCmd :=
                        (createComp ecm.jointForceCmd st.jointEntity [force]
                          createOk) }
                | some old =>
                    { ecm with jointForceCmd :=
                        (setComp ecm.jointForceCmd st.jointEntity
                          (old.set 0 force)) }
              ⟨st, ecm, didLookup, false⟩
        else
          -- Velocity mode.
          let ecm :=
            match getComp ecm.jointVelocityCmd st.jointEntity with
            | none =>
                { ecm with jointVelocityCmd :=
                    (createComp ecm.jointVelocityCmd st.jointEntity
                      [targetVel] createOk) }
            | some old =>
                { ecm with jointVelocityCmd :=
                    (setComp ecm.jointVelocityCmd st.jointEntity
                      (old.set 0 targetVel)) }
          ⟨st, ecm, didLookup, false⟩

/-- `JointController::PreUpdate`: warn on a backward time jump, then run
the rest of the step unchanged. -/
def PreUpdate (st : JointControllerPrivate) (ecm : Ecm) (info : UpdateInfo)
    (createOk : Bool) : StepResult :=
  ⟨PreUpdateCore st ecm info createOk, decide (info.dt < 0)⟩

/-- Fold a sequence of `(error, dt)` inputs through `PID.Update`,
returning the final controller state. -/
def pidRun (s : PID) (inputs : List (ℚ × ℚ)) : PID :=
  inputs.foldl (fun s p => (s.Update p.1 p.2).2) s

/-- Run a sequence of steps, threading the private state and the store
slice (each list element: timing info and the step's creation oracle). -/
def runSteps (st : JointControllerPrivate) (ecm : Ecm)
    (inputs : List (UpdateInfo × Bool)) : JointControllerPrivate × Ecm :=
  inputs.foldl
    (fun acc i =>
      let r := (PreUpdate acc.1 acc.2 i.1 i.2).core
      (r.st, r.ecm))
    (st, ecm)

/-- Run a sequence of steps in which the external store slice seen at each
step is supplied from outside (other systems may have rewritten it between
steps); returns the private state. -/
def runStepsExt (st : JointControllerPrivate)
    (inputs : List (Ecm × UpdateInfo × Bool)) : JointControllerPrivate :=
  inputs.foldl
    (fun s i => (PreUpdate s i.1 i.2.1 i.2.2).core.st) st

/-! ### Helper lemmas -/

theorem clampQ_mem (x lo hi : ℚ) (h : lo ≤ hi) :
    lo ≤ clampQ x lo hi ∧ clampQ x lo hi ≤ hi := by
  unfold clampQ
  split_ifs with h1 h2
  · exact ⟨le_refl lo, h⟩
  · exact ⟨h, le_refl hi⟩
  · exact ⟨not_lt.mp h1, not_lt.mp h2⟩

theorem Update_snd_iErr (s : PID) (e dt : ℚ) :
    ((s.Update e dt).2).iErr =
      if 0 < dt then clampQ (s.iErr + e * dt) s.iMin s.iMax else s.iErr :=
  rfl

theorem Update_snd_iMin (s : PID) (e dt : ℚ) :
    ((s.Update e dt).2).iMin = s.iMin := rfl

theorem Update_snd_iMax (s : PID) (e dt : ℚ) :
    ((s.Update e dt).2).iMax = s.iMax := rfl

theorem Update_snd_iGain (s : PID) (e dt : ℚ) :
    ((s.Update e dt).2).iGain = s.iGain := rfl

theorem pidRun_nil (s : PID) : pidRun s [] = s := rfl

theorem pidRun_cons (s : PID) (p : ℚ × ℚ) (l : List (ℚ × ℚ)) :
    pidRun s (p :: l) = pidRun ((s.Update p.1 p.2).2) l := rfl

theorem pidRun_iMin (l : List (ℚ × ℚ)) : ∀ s : PID, (pidRun s l).iMin = s.iMin := by
  induction l with
  | nil => intro s; rfl
  | cons p l ih => intro s; rw [pidRun_cons, ih, Update_snd_iMin]

theorem pidRun_iMax (l : List (ℚ × ℚ)) : ∀ s : PID, (pidRun s l).iMax = s.iMax := by
  induction l with
  | nil => intro s; rfl
  | cons p l ih => intro s; rw [pidRun_cons, ih, Update_snd_iMax]

theorem pidRun_iGain (l : List (ℚ × ℚ)) : ∀ s : PID, (pidRun s l).iGain = s.iGain := by
  induction l with
  | nil => intro s; rfl
  | cons p l ih => intro s; rw [pidRun_cons, ih, Update_snd_iGain]


/-- `PreUpdate` never changes the configured fields of the private state:
joint name, command-store value, model handle and mode survive every step
(only `jointEntity` and `velPid` are ever written during stepping). -/
theorem preUpdateCore_st_frame (st : JointControllerPrivate) (ecm : Ecm)
    (info : UpdateInfo) (ok : Bool) :
    (PreUpdateCore st ecm info ok).st.jointName = st.jointName ∧
    (PreUpdateCore st ecm info ok).st.jointVelCmd = st.jointVelCmd ∧
    (PreUpdateCore st ecm info ok).st.model = st.model ∧
    (PreUpdateCore st ecm info ok).st.useForceCommands = st.useForceCommands := by
  refine ⟨?_, ?_, ?_, ?_⟩ <;>
    (unfold PreUpdateCore; dsimp only; repeat' split <;> try rfl)

/-- Once resolved, a step performs no lookup and keeps the handle. -/
theorem preUpdateCore_resolved (st : JointControllerPrivate) (ecm : Ecm)
    (info : UpdateInfo) (ok : Bool) (h : st.jointEntity ≠ kNullEntity) :
    (PreUpdateCore st ecm info ok).didLookup = false ∧
    (PreUpdateCore st ecm info ok).st.jointEntity = st.jointEntity := by
  refine ⟨?_, ?_⟩ <;>
    (unfold PreUpdateCore; dsimp only; simp only [if_neg h, decide_eq_false h];
     repeat' split <;> try rfl)

/-- A velocity-mode step never touches the force-command store. -/
theorem preUpdateCore_forceCmd_frame (st : JointControllerPrivate) (ecm : Ecm)
    (info : UpdateInfo) (ok : Bool) (h : st.useForceCommands = false) :
    (PreUpdateCore st ecm info ok).ecm.jointForceCmd = ecm.jointForceCmd := by
  unfold PreUpdateCore
  dsimp only
  repeat' split <;> try rfl
  all_goals (dsimp only at *; simp_all)

/-- A force-mode step never touches the velocity-command store. -/
theorem preUpdateCore_velCmd_frame (st : JointControllerPrivate) (ecm : Ecm)
    (info : UpdateInfo) (ok : Bool) (h : st.useForceCommands = true) :
    (PreUpdateCore st ecm info ok).ecm.jointVelocityCmd = ecm.jointVelocityCmd := by
  unfold PreUpdateCore
  dsimp only
  repeat' split <;> try rfl

theorem runStepsExt_nil (st : JointControllerPrivate) : runStepsExt st [] = st := rfl

theorem runStepsExt_cons (st : JointControllerPrivate)
    (i : Ecm × UpdateInfo × Bool) (l : List (Ecm × UpdateInfo × Bool)) :
    runStepsExt st (i :: l) =
      runStepsExt ((PreUpdateCore st i.1 i.2.1 i.2.2).st) l := rfl

theorem runStepsExt_mode (l : List (Ecm × UpdateInfo × Bool)) :
    ∀ st : JointControllerPrivate,
      (runStepsExt st l).useForceCommands = st.useForceCommands := by
  induction l with
  | nil => intro st; rfl
  | cons i l ih =>
      intro st
      rw [runStepsExt_cons, ih]
      exact (preUpdateCore_st_frame st i.1 i.2.1 i.2.2).2.2.2

theorem runStepsExt_resolved (l : List (Ecm × UpdateInfo × Bool)) :
    ∀ st : JointControllerPrivate, st.jointEntity ≠ kNullEntity →
      (runStepsExt st l).jointEntity = st.jointEntity := by
  induction l with
  | nil => intro st _; rfl
  | cons i l ih =>
      intro st h
      rw [runStepsExt_cons]
      have hstep := (preUpdateCore_resolved st i.1 i.2.1 i.2.2 h).2
      rw [ih _ (by rw [hstep]; exact h), hstep]

/-! ### Claims -/

/-- Claim C2: when the configuration does not specify `initial_velocity`,
the initial value held in the command store (the `jointVelCmd` field, read
by every step until the first command message arrives) is `0`.  The
`JointController` constructor value-initializes `JointControllerPrivate`
(`initState`), and `Configure` leaves `jointVelCmd` untouched when the
element is absent. -/
theorem C2_initial_velocity_default (entity : Entity) (sdf : Sdf) (ecm : Ecm)
    (h : sdf.initialVelocity = none) :
    (Configure initState entity sdf ecm).jointVelCmd = 0 := by
  simp only [Configure, h]
  split_ifs <;> rfl

theorem C2_witness :
    (Sdf.mk "j1" none false none none none none none none none none).initialVelocity
        = none ∧
    (Configure initState 1
        (Sdf.mk "j1" none false none none none none none none none none)
        (Ecm.mk [1] [Joint.mk 1 "j1" 7] [] [] [])).jointVelCmd = 0 :=
  ⟨rfl, C2_initial_velocity_default 1 _ _ rfl⟩

/-- Claim C3: a paused step taken after the actuator has resolved leaves
the external store slice untouched (no component created or modified) and
the whole private state — in particular the PID state (`velPid`, holding
the integral accumulator and previous error) and the command-store value
(`jointVelCmd`) — unchanged. -/
theorem C3_pause_noop (st : JointControllerPrivate) (ecm : Ecm) (dt : ℚ)
    (createOk : Bool) (h : st.jointEntity ≠ kNullEntity) :
    (PreUpdate st ecm ⟨dt, true⟩ createOk).core.ecm = ecm ∧
    (PreUpdate st ecm ⟨dt, true⟩ createOk).core.st = st := by
  unfold PreUpdate PreUpdateCore
  simp [h]

theorem C3_witness :
    (JointControllerPrivate.mk 7 "j1" 2 1 false pidDefault).jointEntity
        ≠ kNullEntity ∧
    (PreUpdate (JointControllerPrivate.mk 7 "j1" 2 1 false pidDefault)
        (Ecm.mk [1] [Joint.mk 1 "j1" 7] [(7, [5])] [] [])
        ⟨1, true⟩ true).core.ecm = Ecm.mk [1] [Joint.mk 1 "j1" 7] [(7, [5])] [] [] ∧
    (PreUpdate (JointControllerPrivate.mk 7 "j1" 2 1 false pidDefault)
        (Ecm.mk [1] [Joint.mk 1 "j1" 7] [(7, [5])] [] [])
        ⟨1, true⟩ true).core.st = JointControllerPrivate.mk 7 "j1" 2 1 false pidDefault := by
  refine ⟨by decide, ?_, ?_⟩
  · exact (C3_pause_noop _ _ 1 true (by decide)).1
  · exact (C3_pause_noop _ _ 1 true (by decide)).2

/-- Claim C8: once the actuator handle (`jointEntity`) has resolved to a
non-null value on some step, no later step performs a `JointByName`
lookup, and the handle never changes for the remainder of the instance's
lifetime — whatever store contents, timing and pause flags the later
steps see. -/
theorem C8_resolution_monotonic (st : JointControllerPrivate)
    (h : st.jointEntity ≠ kNullEntity) :
    (∀ (ecm : Ecm) (info : UpdateInfo) (createOk : Bool),
        (PreUpdate st ecm info createOk).core.didLookup = false ∧
        (PreUpdate st ecm info createOk).core.st.jointEntity = st.jointEntity) ∧
    (∀ inputs : List (Ecm × UpdateInfo × Bool),
        (runStepsExt st inputs).jointEntity = st.jointEntity ∧
        ∀ k (hk : k < inputs.length),
          (PreUpdate (runStepsExt st (inputs.take k)) (inputs.get ⟨k, hk⟩).1
              (inputs.get ⟨k, hk⟩).2.1
              (inputs.get ⟨k, hk⟩).2.2).core.didLookup = false) := by
  constructor
  · intro ecm info createOk
    exact ⟨(preUpdateCore_resolved st ecm info createOk h).1,
           (preUpdateCore_resolved st ecm info createOk h).2⟩
  · intro inputs
    refine ⟨runStepsExt_resolved inputs st h, ?_⟩
    intro k hk
    have hres : (runStepsExt st (inputs.take k)).jointEntity ≠ kNullEntity := by
      rw [runStepsExt_resolved _ st h]; exact h
    exact (preUpdateCore_resolved _ _ _ _ hres).1

theorem C8_witness :
    (JointControllerPrivate.mk 7 "j1" 2 1 false pidDefault).jointEntity
        ≠ kNullEntity ∧
    (PreUpdate (JointControllerPrivate.mk 7 "j1" 2 1 false pidDefault)
        (Ecm.mk [1] [Joint.mk 1 "j1" 7] [(7, [5])] [] [])
        (UpdateInfo.mk 1 false) true).core.didLookup = false ∧
    (runStepsExt (JointControllerPrivate.mk 7 "j1" 2 1 false pidDefault)
        [(Ecm.mk [1] [Joint.mk 1 "j1" 7] [(7, [5])] [] [],
          UpdateInfo.mk 1 false, true)]).jointEntity = 7 :=
  ⟨by decide,
   ((C8_resolution_monotonic _ (by decide)).1
      (Ecm.mk [1] [Joint.mk 1 "j1" 7] [(7, [5])] [] [])
      (UpdateInfo.mk 1 false) true).1,
   ((C8_resolution_monotonic _ (by decide)).2
      [(Ecm.mk [1] [Joint.mk 1 "j1" 7] [(7, [5])] [] [],
        UpdateInfo.mk 1 false, true)]).1⟩

/-- Claim C4: mode exclusivity across any sequence of steps.  An instance
configured in velocity mode (`useForceCommands = false`) never creates or
writes the force-command store at any step of any sequence, and an
instance configured in force mode never creates or writes the
velocity-command store. -/
theorem C4_mode_exclusivity (st : JointControllerPrivate)
    (inputs : List (Ecm × UpdateInfo × Bool)) :
    (st.useForceCommands = false →
      ∀ k (hk : k < inputs.length),
        (PreUpdate (runStepsExt st (inputs.take k)) (inputs.get ⟨k, hk⟩).1
            (inputs.get ⟨k, hk⟩).2.1
            (inputs.get ⟨k, hk⟩).2.2).core.ecm.jointForceCmd
          = (inputs.get ⟨k, hk⟩).1.jointForceCmd) ∧
    (st.useForceCommands = true →
      ∀ k (hk : k < inputs.length),
        (PreUpdate (runStepsExt st (inputs.take k)) (inputs.get ⟨k, hk⟩).1
            (inputs.get ⟨k, hk⟩).2.1
            (inputs.get ⟨k, hk⟩).2.2).core.ecm.jointVelocityCmd
          = (inputs.get ⟨k, hk⟩).1.jointVelocityCmd) := by
  constructor
  · intro h k hk
    exact preUpdateCore_forceCmd_frame _ _ _ _
      (by rw [runStepsExt_mode]; exact h)
  · intro h k hk
    exact preUpdateCore_velCmd_frame _ _ _ _
      (by rw [runStepsExt_mode]; exact h)

theorem C4_witness :
    (JointControllerPrivate.mk 7 "j1" 2 1 false pidDefault).useForceCommands
        = false ∧
    (PreUpdate (JointControllerPrivate.mk 7 "j1" 2 1 false pidDefault)
        (Ecm.mk [1] [Joint.mk 1 "j1" 7] [(7, [5])] [] [])
        (UpdateInfo.mk 1 false) true).core.ecm.jointForceCmd = [] :=
  ⟨rfl,
   (C4_mode_exclusivity (JointControllerPrivate.mk 7 "j1" 2 1 false pidDefault)
      [(Ecm.mk [1] [Joint.mk 1 "j1" 7] [(7, [5])] [] [],
        UpdateInfo.mk 1 false, true)]).1 rfl 0 (by decide)⟩

/-- `getComp` after a successful creation finds the created data. -/
theorem getComp_createComp_self (store : CompStore) (e : Entity) (d : List ℚ) :
    getComp (createComp store e d true) e = some d := by
  simp [getComp, createComp, List.find?]

/-- `getComp` after an in-place overwrite of an existing slot finds the
new data. -/
theorem getComp_setComp_self (store : CompStore) (e : Entity) (d : List ℚ) :
    (getComp store e).isSome → getComp (setComp store e d) e = some d := by
  induction store with
  | nil => intro h; simp [getComp] at h
  | cons hd tl ih =>
      intro h
      by_cases hc : hd.1 = e
      · simp [getComp, setComp, List.find?, hc]
      · have hne : (hd.1 == e) = false := beq_eq_false_iff_ne.mpr hc
        have hset : setComp (hd :: tl) e d = hd :: setComp tl e d := by
          simp [setComp, hne, hc]
        have hskip : ∀ l : CompStore, getComp (hd :: l) e = getComp l e := by
          intro l
          simp [getComp, List.find?, hne]
        rw [hset, hskip]
        rw [hskip] at h
        exact ih h

/-- A resolved, unpaused velocity-mode step whose measured-velocity
component exists writes exactly the velocity-command slot (creating it
when absent, overwriting element 0 otherwise) and changes nothing else. -/
theorem preUpdateCore_velmode_eq (st : JointControllerPrivate) (ecm : Ecm)
    (dt : ℚ) (ok : Bool) (velData : List ℚ)
    (hmode : st.useForceCommands = false)
    (hres : st.jointEntity ≠ kNullEntity)
    (hvel : getComp ecm.jointVelocity st.jointEntity = some velData) :
    PreUpdateCore st ecm ⟨dt, false⟩ ok =
      ⟨st,
       { ecm with jointVelocityCmd :=
           (match getComp ecm.jointVelocityCmd st.jointEntity with
            | none => createComp ecm.jointVelocityCmd st.jointEntity
                [st.jointVelCmd] ok
            | some old => setComp ecm.jointVelocityCmd st.jointEntity
                (old.set 0 st.jointVelCmd)) },
       false, false⟩ := by
  unfold PreUpdateCore
  dsimp only
  simp [if_neg hres, decide_eq_false hres, hvel, hmode]
  split <;> rfl

/-- A resolved, unpaused force-mode step whose measured-velocity component
exists and is non-empty computes `error = measured − target`, feeds it to
the PID, and writes exactly the force-command slot (creating it when
absent, overwriting element 0 otherwise). -/
theorem preUpdateCore_forcemode_eq (st : JointControllerPrivate) (ecm : Ecm)
    (dt : ℚ) (ok : Bool) (v0 : ℚ) (rest : List ℚ)
    (hmode : st.useForceCommands = true)
    (hres : st.jointEntity ≠ kNullEntity)
    (hvel : getComp ecm.jointVelocity st.jointEntity = some (v0 :: rest)) :
    PreUpdateCore st ecm ⟨dt, false⟩ ok =
      ⟨{ st with velPid := (st.velPid.Update (v0 - st.jointVelCmd) dt).2 },
       { ecm with jointForceCmd :=
           (match getComp ecm.jointForceCmd st.jointEntity with
            | none => createComp ecm.jointForceCmd st.jointEntity
                [(st.velPid.Update (v0 - st.jointVelCmd) dt).1] ok
            | some old => setComp ecm.jointForceCmd st.jointEntity
                (old.set 0 (st.velPid.Update (v0 - st.jointVelCmd) dt).1)) },
       false, false⟩ := by
  unfold PreUpdateCore
  dsimp only
  simp [if_neg hres, decide_eq_false hres, hvel, hmode, List.get?]
  split <;> rfl

/-- Claim C1 is corrected by this theorem: on a resolved, unpaused step
where the measured-velocity component does not exist in the store, the
component is created with a default-constructed (empty) value and the
step is then aborted unconditionally — the stale component pointer
fetched before `CreateComponent` is re-checked, so the abort happens
whether or not the store accepted the creation (`createOk`); the command
read and the mode-appropriate command write happen only on steps where
the component already existed when the step began. -/
theorem C1_amended_create_then_abort (st : JointControllerPrivate)
    (ecm : Ecm) (dt : ℚ) (createOk : Bool)
    (hres : st.jointEntity ≠ kNullEntity)
    (habs : getComp ecm.jointVelocity st.jointEntity = none) :
    (PreUpdate st ecm ⟨dt, false⟩ createOk).core =
      ⟨st,
       { ecm with jointVelocity :=
           (createComp ecm.jointVelocity st.jointEntity [] createOk) },
       false, false⟩ := by
  unfold PreUpdate PreUpdateCore
  dsimp only
  simp [if_neg hres, decide_eq_false hres, habs]

/-- Claim C1 (counterexample): a concrete resolved, unpaused
velocity-mode step on which the measured-velocity component is absent and
the store accepts the creation.  The creation succeeds — the component is
present afterwards — and yet no command component is written in that same
step, refuting the claim that a successful creation lets the step proceed
to the command write. -/
theorem C1_counterexample :
    (PreUpdate (JointControllerPrivate.mk 7 "j1" 2 1 false pidDefault)
        (Ecm.mk [1] [Joint.mk 1 "j1" 7] [] [] [])
        (UpdateInfo.mk 1 false) true).core.ecm.jointVelocity = [(7, [])] ∧
    (PreUpdate (JointControllerPrivate.mk 7 "j1" 2 1 false pidDefault)
        (Ecm.mk [1] [Joint.mk 1 "j1" 7] [] [] [])
        (UpdateInfo.mk 1 false) true).core.ecm.jointVelocityCmd = [] ∧
    (PreUpdate (JointControllerPrivate.mk 7 "j1" 2 1 false pidDefault)
        (Ecm.mk [1] [Joint.mk 1 "j1" 7] [] [] [])
        (UpdateInfo.mk 1 false) true).core.ecm.jointForceCmd = [] :=
  ⟨rfl, rfl, rfl⟩

theorem C1_witness :
    getComp (Ecm.mk [1] [Joint.mk 1 "j1" 7] [] [] []).jointVelocity 7
        = none ∧
    (PreUpdate (JointControllerPrivate.mk 7 "j1" 2 1 false pidDefault)
        (Ecm.mk [1] [Joint.mk 1 "j1" 7] [] [] [])
        (UpdateInfo.mk 1 false) true).core =
      CoreResult.mk (JointControllerPrivate.mk 7 "j1" 2 1 false pidDefault)
        (Ecm.mk [1] [Joint.mk 1 "j1" 7] [(7, [])] [] []) false false :=
  ⟨rfl, C1_amended_create_then_abort _ _ 1 true (by decide) rfl⟩

/-- Claim C5: on every force-mode step that reaches the command
computation, the error passed to the PID update equals the measured
velocity (element 0 of the measured-velocity data) minus the target read
from the command store, the force written is exactly the value returned
by `PID.Update(error, dt)` (whose advanced state is stored back), and it
is written into the force-command slot — created as the one-element
vector `[force]` when the slot is absent and the store accepts the
creation, and overwriting element 0 of the existing data otherwise. -/
theorem C5_force_mode_step (st : JointControllerPrivate) (ecm : Ecm)
    (dt v0 : ℚ) (rest : List ℚ) (createOk : Bool)
    (hmode : st.useForceCommands = true)
    (hres : st.jointEntity ≠ kNullEntity)
    (hvel : getComp ecm.jointVelocity st.jointEntity = some (v0 :: rest)) :
    (PreUpdate st ecm ⟨dt, false⟩ createOk).core.st
        = { st with velPid := (st.velPid.Update (v0 - st.jointVelCmd) dt).2 } ∧
    (getComp ecm.jointForceCmd st.jointEntity = none → createOk = true →
      getComp (PreUpdate st ecm ⟨dt, false⟩ createOk).core.ecm.jointForceCmd
          st.jointEntity
        = some [(st.velPid.Update (v0 - st.jointVelCmd) dt).1]) ∧
    (∀ old, getComp ecm.jointForceCmd st.jointEntity = some old →
      getComp (PreUpdate st ecm ⟨dt, false⟩ createOk).core.ecm.jointForceCmd
          st.jointEntity
        = some (old.set 0 (st.velPid.Update (v0 - st.jointVelCmd) dt).1)) := by
  have hc := preUpdateCore_forcemode_eq st ecm dt createOk v0 rest hmode hres hvel
  refine ⟨?_, ?_, ?_⟩
  · show (PreUpdateCore st ecm ⟨dt, false⟩ createOk).st = _
    rw [hc]
  · intro hfc hok
    show getComp (PreUpdateCore st ecm ⟨dt, false⟩ createOk).ecm.jointForceCmd
        st.jointEntity = _
    rw [hc]
    dsimp only
    simp only [hfc]
    subst hok
    exact getComp_createComp_self _ _ _
  · intro old hfc
    show getComp (PreUpdateCore st ecm ⟨dt, false⟩ createOk).ecm.jointForceCmd
        st.jointEntity = _
    rw [hc]
    dsimp only
    simp only [hfc]
    exact getComp_setComp_self _ _ _ (by rw [hfc]; rfl)

theorem C5_witness :
    (JointControllerPrivate.mk 7 "j1" 2 1 true
        (PID.Init 2 0 0 1 (-1) 10 (-10) 0)).useForceCommands = true ∧
    getComp (Ecm.mk [1] [Joint.mk 1 "j1" 7] [(7, [5])] [] []).jointVelocity 7
        = some [5] ∧
    getComp (PreUpdate
        (JointControllerPrivate.mk 7 "j1" 2 1 true
          (PID.Init 2 0 0 1 (-1) 10 (-10) 0))
        (Ecm.mk [1] [Joint.mk 1 "j1" 7] [(7, [5])] [] [])
        (UpdateInfo.mk 1 false) true).core.ecm.jointForceCmd 7 = some [6] :=
  ⟨rfl, rfl, by
    have h := (C5_force_mode_step
      (JointControllerPrivate.mk 7 "j1" 2 1 true
        (PID.Init 2 0 0 1 (-1) 10 (-10) 0))
      (Ecm.mk [1] [Joint.mk 1 "j1" 7] [(7, [5])] [] [])
      1 5 [] true rfl (by decide) rfl).2.1 rfl rfl
    dsimp only at h
    rw [h]
    norm_num [PID.Update, PID.Init, clampQ]⟩

/-- An aborted `Configure` — owning model invalid, or empty `joint_name` —
leaves the joint name empty and the joint handle null. -/
theorem Configure_abort_fields (entity : Entity) (sdf : Sdf) (ecm0 : Ecm)
    (habort : ecm0.modelValid entity = false ∨ sdf.jointName = "") :
    (Configure initState entity sdf ecm0).jointName = "" ∧
    (Configure initState entity sdf ecm0).jointEntity = kNullEntity := by
  unfold Configure
  dsimp only
  rcases habort with h | h
  · rw [if_pos (by simp [h])]
    exact ⟨rfl, rfl⟩
  · split
    · exact ⟨rfl, rfl⟩
    · simp [h, initState]

/-- Looking a joint up by the empty name finds nothing in a well-formed
joint table. -/
theorem jointByName_empty (ecm : Ecm) (hwf : ecm.wfNames) (m : Entity) :
    ecm.jointByName m "" = kNullEntity := by
  unfold Ecm.jointByName
  have hnone :
      ecm.joints.find? (fun j => j.parent == m && j.name == "") = none := by
    rw [List.find?_eq_none]
    intro j hj
    simp only [Bool.and_eq_true, beq_iff_eq, not_and]
    intro _ hn
    exact hwf j hj hn
  rw [hnone]

/-- A step taken with a null handle and an empty joint name resolves
nothing and is a complete no-op apart from the attempted lookup. -/
theorem preUpdateCore_unresolved_noop (st : JointControllerPrivate)
    (ecm : Ecm) (info : UpdateInfo) (ok : Bool)
    (hname : st.jointName = "") (hnull : st.jointEntity = kNullEntity)
    (hwf : ecm.wfNames) :
    PreUpdateCore st ecm info ok = ⟨st, ecm, true, false⟩ := by
  obtain ⟨je, jn, jv, mo, uf, vp⟩ := st
  obtain rfl : jn = "" := hname
  obtain rfl : je = kNullEntity := hnull
  unfold PreUpdateCore
  dsimp only
  simp [jointByName_empty ecm hwf]

/-- Claim C6: if at configuration time the owning model handle is invalid
or the configured joint name is empty, `Configure` aborts and the
instance is permanently inert — every subsequent step (any store
contents with a well-formed joint table, any timing, any pause flag,
any creation oracle) changes no component in the external store, leaves
the private state exactly as `Configure` left it, and never reaches the
throwing bounds-checked read. -/
theorem C6_inert_after_config_abort (entity : Entity) (sdf : Sdf) (ecm0 : Ecm)
    (habort : ecm0.modelValid entity = false ∨ sdf.jointName = "") :
    ∀ (ecm : Ecm), ecm.wfNames → ∀ (info : UpdateInfo) (createOk : Bool),
      (PreUpdate (Configure initState entity sdf ecm0) ecm info createOk).core.ecm
          = ecm ∧
      (PreUpdate (Configure initState entity sdf ecm0) ecm info createOk).core.st
          = Configure initState entity sdf ecm0 ∧
      (PreUpdate (Configure initState entity sdf ecm0) ecm info createOk).core.atError
          = false := by
  intro ecm hwf info createOk
  have hab := Configure_abort_fields entity sdf ecm0 habort
  have hstep := preUpdateCore_unresolved_noop (Configure initState entity sdf ecm0)
      ecm info createOk hab.1 hab.2 hwf
  refine ⟨?_, ?_, ?_⟩
  · show (PreUpdateCore (Configure initState entity sdf ecm0) ecm info createOk).ecm = ecm
    rw [hstep]
  · show (PreUpdateCore (Configure initState entity sdf ecm0) ecm info createOk).st = _
    rw [hstep]
  · show (PreUpdateCore (Configure initState entity sdf ecm0) ecm info createOk).atError = false
    rw [hstep]

theorem C6_witness :
    ((Ecm.mk [1] [Joint.mk 1 "j1" 7] [] [] []).modelValid 1 = false ∨
      (Sdf.mk "" (some 3) false none none none none none none none
          none).jointName = "") ∧
    (Ecm.mk [1] [Joint.mk 1 "j1" 7] [] [] []).wfNames ∧
    (PreUpdate
        (Configure initState 1
          (Sdf.mk "" (some 3) false none none none none none none none none)
          (Ecm.mk [1] [Joint.mk 1 "j1" 7] [] [] []))
        (Ecm.mk [1] [Joint.mk 1 "j1" 7] [] [] [])
        (UpdateInfo.mk 1 false) true).core.ecm
      = Ecm.mk [1] [Joint.mk 1 "j1" 7] [] [] [] :=
  ⟨Or.inr rfl, by decide,
   (C6_inert_after_config_abort 1
      (Sdf.mk "" (some 3) false none none none none none none none none)
      (Ecm.mk [1] [Joint.mk 1 "j1" 7] [] [] []) (Or.inr rfl)
      (Ecm.mk [1] [Joint.mk 1 "j1" 7] [] [] []) (by decide)
      (UpdateInfo.mk 1 false) true).1⟩

/-- Claim C9: a step invoked with negative `dt` sets the jump-back
warning and then proceeds exactly as any other step: its result is the
unmodified post-warning body `PreUpdateCore` (resolution, pause check,
component read and command write, all unchanged), and no state is
reset — the command-store value, joint name, model handle and mode are
all preserved. -/
theorem C9_negative_dt (st : JointControllerPrivate) (ecm : Ecm) (dt : ℚ)
    (paused createOk : Bool) (h : dt < 0) :
    (PreUpdate st ecm ⟨dt, paused⟩ createOk).warned = true ∧
    (PreUpdate st ecm ⟨dt, paused⟩ createOk).core
        = PreUpdateCore st ecm ⟨dt, paused⟩ createOk ∧
    (PreUpdate st ecm ⟨dt, paused⟩ createOk).core.st.jointVelCmd
        = st.jointVelCmd ∧
    (PreUpdate st ecm ⟨dt, paused⟩ createOk).core.st.jointName
        = st.jointName ∧
    (PreUpdate st ecm ⟨dt, paused⟩ createOk).core.st.model = st.model ∧
    (PreUpdate st ecm ⟨dt, paused⟩ createOk).core.st.useForceCommands
        = st.useForceCommands := by
  have hframe := preUpdateCore_st_frame st ecm ⟨dt, paused⟩ createOk
  exact ⟨decide_eq_true h, rfl, hframe.2.1, hframe.1, hframe.2.2.1,
    hframe.2.2.2⟩

theorem C9_witness :
    ((-1 : ℚ) < 0) ∧
    (PreUpdate (JointControllerPrivate.mk 7 "j1" 2 1 false pidDefault)
        (Ecm.mk [1] [Joint.mk 1 "j1" 7] [(7, [5])] [] [])
        (UpdateInfo.mk (-1) false) true).warned = true ∧
    (PreUpdate (JointControllerPrivate.mk 7 "j1" 2 1 false pidDefault)
        (Ecm.mk [1] [Joint.mk 1 "j1" 7] [(7, [5])] [] [])
        (UpdateInfo.mk (-1) false) true).core.st.jointVelCmd = 2 :=
  ⟨by norm_num,
   (C9_negative_dt (JointControllerPrivate.mk 7 "j1" 2 1 false pidDefault)
      (Ecm.mk [1] [Joint.mk 1 "j1" 7] [(7, [5])] [] [])
      (-1) false true (by norm_num)).1,
   (C9_negative_dt (JointControllerPrivate.mk 7 "j1" 2 1 false pidDefault)
      (Ecm.mk [1] [Joint.mk 1 "j1" 7] [(7, [5])] [] [])
      (-1) false true (by norm_num)).2.2.1⟩

/-- Writing `f` into a command slot — creating `[f]` when the slot is
absent (if the store accepts), overwriting element 0 otherwise — never
changes the data at indices `≥ 1`. -/
theorem getComp_after_write (store : CompStore) (e : Entity) (f : ℚ)
    (ok : Bool) (i : Nat) (hi : 1 ≤ i) :
    ((getComp (match getComp store e with
        | none => createComp store e [f] ok
        | some old => setComp store e (old.set 0 f)) e).getD []).get? i
      = ((getComp store e).getD []).get? i := by
  rcases hg : getComp store e with _ | old
  · cases ok with
    | false => simp [createComp, hg]
    | true =>
        rw [getComp_createComp_self]
        simp [hg]
        omega
  · rw [getComp_setComp_self store e _ (by rw [hg]; rfl)]
    simp only [Option.getD_some]
    exact List.get?_set_ne f old (show (0 : ℕ) ≠ i from by omega)

/-- Claim C10: the controller only ever touches element 0 of the
per-joint data vectors.  On a resolved, unpaused step whose
measured-velocity data is non-empty: the bounds-checked `.at(0)` read is
in range (its out-of-range branch is unreachable); the step's outcome
depends on the measured-velocity data only through element 0 (replacing
the additional axes changes neither the private state nor either command
store); and the data at indices `≥ 1` of both command slots is exactly
what it was before the step. -/
theorem C10_single_axis (st : JointControllerPrivate) (ecm : Ecm) (dt : ℚ)
    (createOk : Bool) (v0 : ℚ) (rest : List ℚ)
    (hres : st.jointEntity ≠ kNullEntity)
    (hvel : getComp ecm.jointVelocity st.jointEntity = some (v0 :: rest)) :
    (PreUpdate st ecm ⟨dt, false⟩ createOk).core.atError = false ∧
    (∀ (ecm2 : Ecm) (rest2 : List ℚ),
        ecm2.jointForceCmd = ecm.jointForceCmd →
        ecm2.jointVelocityCmd = ecm.jointVelocityCmd →
        getComp ecm2.jointVelocity st.jointEntity = some (v0 :: rest2) →
        (PreUpdate st ecm2 ⟨dt, false⟩ createOk).core.st
            = (PreUpdate st ecm ⟨dt, false⟩ createOk).core.st ∧
        (PreUpdate st ecm2 ⟨dt, false⟩ createOk).core.ecm.jointForceCmd
            = (PreUpdate st ecm ⟨dt, false⟩ createOk).core.ecm.jointForceCmd ∧
        (PreUpdate st ecm2 ⟨dt, false⟩ createOk).core.ecm.jointVelocityCmd
            = (PreUpdate st ecm ⟨dt, false⟩ createOk).core.ecm.jointVelocityCmd) ∧
    (∀ i, 1 ≤ i →
        ((getComp (PreUpdate st ecm ⟨dt, false⟩ createOk).core.ecm.jointForceCmd
              st.jointEntity).getD []).get? i
          = ((getComp ecm.jointForceCmd st.jointEntity).getD []).get? i ∧
        ((getComp (PreUpdate st ecm ⟨dt, false⟩ createOk).core.ecm.jointVelocityCmd
              st.jointEntity).getD []).get? i
          = ((getComp ecm.jointVelocityCmd st.jointEntity).getD []).get? i) := by
  by_cases hm : st.useForceCommands = true
  · have hc := preUpdateCore_forcemode_eq st ecm dt createOk v0 rest hm hres hvel
    refine ⟨?_, ?_, ?_⟩
    · show (PreUpdateCore st ecm ⟨dt, false⟩ createOk).atError = false
      rw [hc]
    · intro ecm2 rest2 hf hv hvel2
      have hc2 := preUpdateCore_forcemode_eq st ecm2 dt createOk v0 rest2 hm hres hvel2
      refine ⟨?_, ?_, ?_⟩
      · show (PreUpdateCore st ecm2 ⟨dt, false⟩ createOk).st
            = (PreUpdateCore st ecm ⟨dt, false⟩ createOk).st
        rw [hc, hc2]
      · show (PreUpdateCore st ecm2 ⟨dt, false⟩ createOk).ecm.jointForceCmd
            = (PreUpdateCore st ecm ⟨dt, false⟩ createOk).ecm.jointForceCmd
        rw [hc, hc2]
        dsimp only
        rw [hf]
      · show (PreUpdateCore st ecm2 ⟨dt, false⟩ createOk).ecm.jointVelocityCmd
            = (PreUpdateCore st ecm ⟨dt, false⟩ createOk).ecm.jointVelocityCmd
        rw [hc, hc2]
        dsimp only
        exact hv
    · intro i hi
      constructor
      · have : (PreUpdate st ecm ⟨dt, false⟩ createOk).core.ecm.jointForceCmd
            = (match getComp ecm.jointForceCmd st.jointEntity with
               | none => createComp ecm.jointForceCmd st.jointEntity
                   [(st.velPid.Update (v0 - st.jointVelCmd) dt).1] createOk
               | some old => setComp ecm.jointForceCmd st.jointEntity
                   (old.set 0 (st.velPid.Update (v0 - st.jointVelCmd) dt).1)) := by
          show (PreUpdateCore st ecm ⟨dt, false⟩ createOk).ecm.jointForceCmd = _
          rw [hc]
        rw [this]
        exact getComp_after_write ecm.jointForceCmd st.jointEntity _ createOk i hi
      · have : (PreUpdate st ecm ⟨dt, false⟩ createOk).core.ecm.jointVelocityCmd
            = ecm.jointVelocityCmd :=
          preUpdateCore_velCmd_frame st ecm ⟨dt, false⟩ createOk hm
        rw [this]
  · have hm' : st.useForceCommands = false := by
      cases hb : st.useForceCommands
      · rfl
      · exact absurd hb hm
    have hc := preUpdateCore_velmode_eq st ecm dt createOk (v0 :: rest) hm' hres hvel
    refine ⟨?_, ?_, ?_⟩
    · show (PreUpdateCore st ecm ⟨dt, false⟩ createOk).atError = false
      rw [hc]
    · intro ecm2 rest2 hf hv hvel2
      have hc2 := preUpdateCore_velmode_eq st ecm2 dt createOk (v0 :: rest2) hm' hres hvel2
      refine ⟨?_, ?_, ?_⟩
      · show (PreUpdateCore st ecm2 ⟨dt, false⟩ createOk).st
            = (PreUpdateCore st ecm ⟨dt, false⟩ createOk).st
        rw [hc, hc2]
      · show (PreUpdateCore st ecm2 ⟨dt, false⟩ createOk).ecm.jointForceCmd
            = (PreUpdateCore st ecm ⟨dt, false⟩ createOk).ecm.jointForceCmd
        rw [hc, hc2]
        dsimp only
        exact hf
      · show (PreUpdateCore st ecm2 ⟨dt, false⟩ createOk).ecm.jointVelocityCmd
            = (PreUpdateCore st ecm ⟨dt, false⟩ createOk).ecm.jointVelocityCmd
        rw [hc, hc2]
        dsimp only
        rw [hv]
    · intro i hi
      constructor
      · have : (PreUpdate st ecm ⟨dt, false⟩ createOk).core.ecm.jointForceCmd
            = ecm.jointForceCmd :=
          preUpdateCore_forceCmd_frame st ecm ⟨dt, false⟩ createOk hm'
        rw [this]
      · have : (PreUpdate st ecm ⟨dt, false⟩ createOk).core.ecm.jointVelocityCmd
            = (match getComp ecm.jointVelocityCmd st.jointEntity with
               | none => createComp ecm.jointVelocityCmd st.jointEntity
                   [st.jointVelCmd] createOk
               | some old => setComp ecm.jointVelocityCmd st.jointEntity
                   (old.set 0 st.jointVelCmd)) := by
          show (PreUpdateCore st ecm ⟨dt, false⟩ createOk).ecm.jointVelocityCmd = _
          rw [hc]
        rw [this]
        exact getComp_after_write ecm.jointVelocityCmd st.jointEntity _ createOk i hi

theorem C10_witness :
    (JointControllerPrivate.mk 7 "j1" 2 1 true
        (PID.Init 2 0 0 1 (-1) 10 (-10) 0)).jointEntity ≠ kNullEntity ∧
    getComp (Ecm.mk [1] [Joint.mk 1 "j1" 7] [(7, [5])] [(7, [9, 9])]
        []).jointVelocity 7 = some [5] ∧
    (PreUpdate (JointControllerPrivate.mk 7 "j1" 2 1 true
          (PID.Init 2 0 0 1 (-1) 10 (-10) 0))
        (Ecm.mk [1] [Joint.mk 1 "j1" 7] [(7, [5])] [(7, [9, 9])] [])
        (UpdateInfo.mk 1 false) true).core.atError = false ∧
    ((getComp (PreUpdate (JointControllerPrivate.mk 7 "j1" 2 1 true
            (PID.Init 2 0 0 1 (-1) 10 (-10) 0))
          (Ecm.mk [1] [Joint.mk 1 "j1" 7] [(7, [5])] [(7, [9, 9])] [])
          (UpdateInfo.mk 1 false) true).core.ecm.jointForceCmd 7).getD []).get? 1
      = ((getComp (Ecm.mk [1] [Joint.mk 1 "j1" 7] [(7, [5])] [(7, [9, 9])]
          []).jointForceCmd 7).getD []).get? 1 :=
  ⟨by decide, rfl,
   (C10_single_axis (JointControllerPrivate.mk 7 "j1" 2 1 true
        (PID.Init 2 0 0 1 (-1) 10 (-10) 0))
      (Ecm.mk [1] [Joint.mk 1 "j1" 7] [(7, [5])] [(7, [9, 9])] [])
      1 true 5 [] (by decide) rfl).1,
   ((C10_single_axis (JointControllerPrivate.mk 7 "j1" 2 1 true
        (PID.Init 2 0 0 1 (-1) 10 (-10) 0))
      (Ecm.mk [1] [Joint.mk 1 "j1" 7] [(7, [5])] [(7, [9, 9])] [])
      1 true 5 [] (by decide) rfl).2.2 1 (by decide)).1⟩

/-- The integral accumulator stays in `[iMin, iMax]` along any run, as
long as it starts there. -/
theorem pidRun_iErr_mem (l : List (ℚ × ℚ)) : ∀ s : PID,
    s.iMin ≤ s.iMax → s.iMin ≤ s.iErr → s.iErr ≤ s.iMax →
    s.iMin ≤ (pidRun s l).iErr ∧ (pidRun s l).iErr ≤ s.iMax := by
  induction l with
  | nil => intro s _ h1 h2; exact ⟨h1, h2⟩
  | cons p l ih =>
      intro s hle h1 h2
      rw [pidRun_cons]
      have hstep : s.iMin ≤ ((s.Update p.1 p.2).2).iErr ∧
          ((s.Update p.1 p.2).2).iErr ≤ s.iMax := by
        rw [Update_snd_iErr]
        split
        · exact clampQ_mem _ _ _ hle
        · exact ⟨h1, h2⟩
      have h3 : ((s.Update p.1 p.2).2).iMin ≤ ((s.Update p.1 p.2).2).iErr := by
        rw [Update_snd_iMin]; exact hstep.1
      have h4 : ((s.Update p.1 p.2).2).iErr ≤ ((s.Update p.1 p.2).2).iMax := by
        rw [Update_snd_iMax]; exact hstep.2
      have h5 : ((s.Update p.1 p.2).2).iMin ≤ ((s.Update p.1 p.2).2).iMax := by
        rw [Update_snd_iMin, Update_snd_iMax]; exact hle
      have hres := ih _ h5 h3 h4
      rw [Update_snd_iMin, Update_snd_iMax] at hres
      exact hres

/-- Running the PID on `n` copies of a fixed positive-`dt` input iterates
the clamped accumulation map on the accumulator. -/
theorem pidRun_replicate_iErr (e dt : ℚ) (hdt : 0 < dt) :
    ∀ (n : ℕ) (s : PID),
      (pidRun s (List.replicate n (e, dt))).iErr
        = (fun a => clampQ (a + e * dt) s.iMin s.iMax)^[n] s.iErr := by
  intro n
  induction n with
  | zero => intro s; rfl
  | succ n ih =>
      intro s
      rw [List.replicate_succ, pidRun_cons, ih]
      rw [Update_snd_iMin, Update_snd_iMax, Update_snd_iErr, if_pos hdt]
      exact (Function.iterate_succ_apply
        (fun a => clampQ (a + e * dt) s.iMin s.iMax) n s.iErr).symm

/-- Iterating clamped accumulation by a positive increment from zero
yields `min (n * δ) hi`. -/
theorem iterate_clamp_formula (δ lo hi : ℚ) (hδ : 0 < δ) (hlo : lo ≤ 0)
    (hhi : 0 ≤ hi) :
    ∀ n : ℕ, (fun a => clampQ (a + δ) lo hi)^[n] 0 = min ((n : ℚ) * δ) hi := by
  intro n
  induction n with
  | zero =>
      show (0 : ℚ) = min ((0 : ℕ) * δ : ℚ) hi
      push_cast
      rw [zero_mul, min_eq_left hhi]
  | succ n ih =>
      rw [Function.iterate_succ_apply', ih]
      push_cast
      have hnd : 0 ≤ (n : ℚ) * δ := by positivity
      rcases le_total ((n : ℚ) * δ) hi with hle | hgt
      · rw [min_eq_left hle]
        unfold clampQ
        rw [if_neg (by linarith)]
        rcases le_or_lt ((n : ℚ) * δ + δ) hi with h2 | h2
        · rw [if_neg (not_lt.mpr h2), eq_comm, min_eq_left (by linarith)]
          ring
        · rw [if_pos h2, eq_comm, min_eq_right (by linarith)]
      · rw [min_eq_right hgt]
        unfold clampQ
        rw [if_neg (by linarith), if_pos (by linarith), eq_comm,
          min_eq_right (by nlinarith)]

/-- Claim C7: for every sequence of `PID.Update` calls starting from a
freshly initialized controller (accumulator zero) with `iMin ≤ 0 ≤ iMax`,
the integral accumulator lies within `[iMin, iMax]` after each update;
and with a constant positive error, positive integral gain and positive
`dt` repeated over many updates, the integral-derived contribution
`iGain * accumulator` never exceeds the bound `iGain * iMax` implied by
`iMax` and stabilizes at it after finitely many updates. -/
theorem C7_integral_clamp_antiwindup (s : PID)
    (hmin : s.iMin ≤ 0) (hmax : 0 ≤ s.iMax) (hacc : s.iErr = 0) :
    (∀ inputs : List (ℚ × ℚ),
        s.iMin ≤ (pidRun s inputs).iErr ∧ (pidRun s inputs).iErr ≤ s.iMax) ∧
    (∀ e dt : ℚ, 0 < e → 0 < dt → 0 < s.iGain →
        (∀ n : ℕ,
            s.iGain * (pidRun s (List.replicate n (e, dt))).iErr
              ≤ s.iGain * s.iMax) ∧
        ∃ N : ℕ, ∀ n : ℕ, N ≤ n →
            s.iGain * (pidRun s (List.replicate n (e, dt))).iErr
              = s.iGain * s.iMax) := by
  constructor
  · intro inputs
    exact pidRun_iErr_mem inputs s (le_trans hmin hmax)
      (by rw [hacc]; exact hmin) (by rw [hacc]; exact hmax)
  · intro e dt he hdt hi
    have hδ : 0 < e * dt := by positivity
    have hform : ∀ n : ℕ,
        (pidRun s (List.replicate n (e, dt))).iErr
          = min ((n : ℚ) * (e * dt)) s.iMax := by
      intro n
      rw [pidRun_replicate_iErr e dt hdt n s, hacc]
      exact iterate_clamp_formula (e * dt) s.iMin s.iMax hδ hmin hmax n
    constructor
    · intro n
      rw [hform n]
      exact mul_le_mul_of_nonneg_left (min_le_right _ _) (le_of_lt hi)
    · refine ⟨(⌈s.iMax / (e * dt)⌉).toNat, ?_⟩
      intro n hn
      have h0 : (0 : ℤ) ≤ ⌈s.iMax / (e * dt)⌉ :=
        Int.ceil_nonneg (div_nonneg hmax (le_of_lt hδ))
      have h1 : s.iMax / (e * dt) ≤ ((⌈s.iMax / (e * dt)⌉).toNat : ℚ) := by
        calc s.iMax / (e * dt) ≤ ((⌈s.iMax / (e * dt)⌉ : ℤ) : ℚ) :=
              Int.le_ceil _
          _ = (((⌈s.iMax / (e * dt)⌉).toNat : ℤ) : ℚ) := by
              rw [Int.toNat_of_nonneg h0]
          _ = ((⌈s.iMax / (e * dt)⌉).toNat : ℚ) := by push_cast; rfl
      have hcast : (((⌈s.iMax / (e * dt)⌉).toNat : ℕ) : ℚ) ≤ (n : ℚ) := by
        exact_mod_cast hn
      have h2 : s.iMax ≤ (n : ℚ) * (e * dt) := by
        calc s.iMax = s.iMax / (e * dt) * (e * dt) :=
              (div_mul_cancel₀ _ (ne_of_gt hδ)).symm
          _ ≤ ((⌈s.iMax / (e * dt)⌉).toNat : ℚ) * (e * dt) :=
              mul_le_mul_of_nonneg_right h1 (le_of_lt hδ)
          _ ≤ (n : ℚ) * (e * dt) :=
              mul_le_mul_of_nonneg_right hcast (le_of_lt hδ)
      rw [hform n, min_eq_right h2]

theorem C7_witness :
    ((PID.Init 0 1 0 1 (-1) 1000 (-1000) 0).iMin ≤ 0) ∧
    ((PID.Init 0 1 0 1 (-1) 1000 (-1000) 0).iErr = 0) ∧
    ((pidRun (PID.Init 0 1 0 1 (-1) 1000 (-1000) 0) [(5, 1), (5, 1)]).iErr
        ≤ (PID.Init 0 1 0 1 (-1) 1000 (-1000) 0).iMax) :=
  ⟨by norm_num [PID.Init], rfl,
   ((C7_integral_clamp_antiwindup (PID.Init 0 1 0 1 (-1) 1000 (-1000) 0)
      (by norm_num [PID.Init]) (by norm_num [PID.Init]) rfl).1
      [(5, 1), (5, 1)]).2⟩

end JointControllerSpec
